import Mathlib

/-
Shallow embedding of src/stepmotor.py (class Stepper).

Modelling conventions:
* Python integers are Lean Int; Python float arithmetic is modelled with Rat.
  Every float value produced by this program is exact in IEEE doubles for the
  ranges the program can reach (speeds are at most 500, and the real-valued
  division step_num / 2 is only stored when step_num < 2 * speed <= 1000), so
  the Rat model coincides with the float semantics of the source.
* Hardware effects (wiringpi.digitalWrite and time.sleep) are recorded in a
  MoveLog.  Every evaluation of the expression 1 / self.actual_speed in the
  source appends the divisor that the source would divide by to the divisors
  field, so divide-by-zero reachability is visible in the log.
* Python list indexing with possibly negative indices (self.half[phase]) is
  modelled by pyIndex, which wraps a negative index i to length + i exactly as
  the host language does.
-/

namespace Stepmotor

/-- Python values that can reach the validation code: integers, strings and
None.  These are the shapes exercised by the spec (move(None, 100),
move(100, "abc"), pin ids). -/
inductive PyVal where
  | vint (n : Int)
  | vstr (s : String)
  | vnone
  deriving DecidableEq

/-- The two conversion errors Python int() can raise on these values:
ValueError for a non-numeric string, TypeError for None. -/
inductive ConvErr where
  | valueError
  | typeError
  deriving DecidableEq

/-- Value of a nonempty all-digit character list, as Python int() parses it. -/
def digitsVal (cs : List Char) : Option Nat :=
  if cs ≠ [] ∧ cs.all Char.isDigit then
    some (cs.foldl (fun a c => 10 * a + (c.toNat - 48)) 0)
  else none

/-- Python int(str) on a decimal literal with an optional sign. -/
def strToInt? (s : String) : Option Int :=
  match s.toList with
  | '-' :: rest => (digitsVal rest).map (fun v => -(v : Int))
  | '+' :: rest => (digitsVal rest).map (fun v => (v : Int))
  | cs => (digitsVal cs).map (fun v => (v : Int))

/-- Python int(v): identity on ints, parse for strings (ValueError on
failure), TypeError on None. -/
def pyInt? : PyVal → Except ConvErr Int
  | .vint n => .ok n
  | .vstr st =>
      match strToInt? st with
      | some n => .ok n
      | none => .error ConvErr.valueError
  | .vnone => .error ConvErr.typeError

/-- Python int() applied to a float value q: truncation toward zero. -/
def pyTrunc (q : Rat) : Int := if 0 ≤ q then ⌊q⌋ else -⌊-q⌋

/-- Python list indexing l[i]: a negative index wraps to length + i, an index
out of that range raises IndexError (modelled as none). -/
def pyIndex {α : Type} (l : List α) (i : Int) : Option α :=
  if 0 ≤ i then l.get? i.toNat
  else
    let j : Int := (l.length : Int) + i
    if 0 ≤ j then l.get? j.toNat else none

/-- The 8-entry half-step table assigned to self.half in Stepper initialization
(src/stepmotor.py lines 25-32). -/
def halfTable : List (List Int) :=
  [[1, 0, 0, 1],
   [1, 0, 0, 0],
   [1, 1, 0, 0],
   [0, 1, 0, 0],
   [0, 1, 1, 0],
   [0, 0, 1, 0],
   [0, 0, 1, 1],
   [0, 0, 0, 1]]

/-- The mutable fields of a Stepper object that the claims are about.  The
direction field is Option Int because Stepper initialization sets it to None
before the first move assigns plus or minus 1. -/
structure MotorState where
  inp : List Int
  half : List (List Int)
  num_step : Int
  direction : Option Int
  actspeed : Int
  actual_speed : Int
  acceleration_factor : Int
  MIN_SPEED : Int
  MAX_SPEED : Int
  deriving DecidableEq

/-- Observable hardware effects of a move: pin writes (pin, level) pairs from
digitalWrite, sleep durations, and the divisor of every evaluation of
1 / self.actual_speed in the source. -/
structure MoveLog where
  writes : List (Int × Int)
  sleeps : List Rat
  divisors : List Int
  deriving DecidableEq

def MoveLog.empty : MoveLog := ⟨[], [], []⟩

def MoveLog.app (a b : MoveLog) : MoveLog :=
  ⟨a.writes ++ b.writes, a.sleeps ++ b.sleeps, a.divisors ++ b.divisors⟩

/-- Phase computation in Stepper.run_one_step (line 104):
phase = (self.num_step % 8) * self.direction. -/
def phaseOf (num_step d : Int) : Int := (num_step % 8) * d

/-- Stepper.run_one_step (lines 102-108): writes half[phase][k] to pin inp[k]
for k = 0..3.  The getD defaults stand for IndexError paths that no reachable
state exercises (inp always has 4 entries and half always has 8 rows of 4);
run_one_step is only invoked after move has set direction. -/
def run_one_step (s : MotorState) : List (Int × Int) :=
  let phase := phaseOf s.num_step (s.direction.getD 0)
  (List.range 4).map (fun k =>
    ((pyIndex s.inp (k : Int)).getD 0,
     (pyIndex ((pyIndex s.half phase).getD []) (k : Int)).getD 0))

/-- Body of the while loop of Stepper._linear_acceleration (lines 189-201),
iterated a given number of times: per iteration the source computes
t = 1 / actual_speed, runs one step, adds acceleration_factor * acc_or_dec to
actual_speed, adds direction to num_step and sleeps t. -/
def accelLoop (s : MotorState) (acc_or_dec : Int) : Nat → MotorState × MoveLog
  | 0 => (s, MoveLog.empty)
  | Nat.succ k =>
      let t : Rat := 1 / (s.actual_speed : Rat)
      let w := run_one_step s
      let s1 := { s with
        actual_speed := s.actual_speed + 1 * s.acceleration_factor * acc_or_dec,
        num_step := s.num_step + 1 * (s.direction.getD 0) }
      let r := accelLoop s1 acc_or_dec k
      (r.1, ⟨w ++ r.2.writes, t :: r.2.sleeps, s.actual_speed :: r.2.divisors⟩)

/-- Stepper._linear_acceleration (lines 174-205).  The while loop
(count = 1; while count <= steps) performs exactly max 0 (floor steps)
iterations since count ranges over the integers 1, 2, ...  When accelerating
the source first sets actual_speed to 1 * acceleration_factor; when
decelerating it sets actual_speed to 0 after the loop. -/
def linear_acceleration (s : MotorState) (steps : Rat) (acc_is_positive : Bool) :
    MotorState × MoveLog :=
  let acc_or_dec : Int := if acc_is_positive then 1 else -1
  let s0 := if acc_is_positive then
    { s with actual_speed := 1 * s.acceleration_factor } else s
  let iters : Nat := (⌊steps⌋).toNat
  let r := accelLoop s0 acc_or_dec iters
  (if acc_is_positive then r.1 else { r.1 with actual_speed := 0 }, r.2)

/-- Body of the for loop of Stepper._move_with_constant_speed (lines 167-172):
per iteration one step is run, direction is added to num_step and the
precomputed delay t is slept. -/
def constLoop (s : MotorState) (t : Rat) : Nat → MotorState × MoveLog
  | 0 => (s, MoveLog.empty)
  | Nat.succ k =>
      let w := run_one_step s
      let s1 := { s with num_step := s.num_step + 1 * (s.direction.getD 0) }
      let r := constLoop s1 t k
      (r.1, ⟨w ++ r.2.writes, t :: r.2.sleeps, r.2.divisors⟩)

/-- Stepper._move_with_constant_speed (lines 161-172): sets actual_speed to
the speed argument, computes t = 1 / actual_speed once (this division happens
even when the loop runs zero times, hence the unconditional divisor record),
and loops range(int(steps)) times. -/
def move_with_constant_speed (s : MotorState) (steps : Rat) (speed : Int) :
    MotorState × MoveLog :=
  let s0 := { s with actual_speed := speed }
  let t : Rat := 1 / (s0.actual_speed : Rat)
  let iters : Nat := (pyTrunc steps).toNat
  let r := constLoop s0 t iters
  (r.1, ⟨r.2.writes, r.2.sleeps, speed :: r.2.divisors⟩)

/-- Speed limit application in Stepper.move (lines 141-144): clamp above at
MAX_SPEED first, then below at MIN_SPEED. -/
def applyLimits (minS maxS sp : Int) : Int :=
  let sp1 := if sp > maxS then maxS else sp
  if sp1 < minS then minS else sp1

/-- Result of Stepper.move: the validation failure strings the source returns,
or ok (Python None) on completion. -/
inductive MoveResult where
  | ok
  | invalid (msg : String)
  deriving DecidableEq

/-- Stepper.move after validation has succeeded (lines 134-159), with step_num
already a nonnegative int n and speed an int sp0.  The two direction ifs of
the source (speed >= 0 sets direction 1; speed < 0 sets direction -1 and takes
the absolute value) are the single conditional below.  acceleration_steps
starts as int(speed / acceleration_factor) and becomes the real value
step_num / 2 when clamped; constant_speed_steps = step_num - 2 *
acceleration_steps. -/
def moveCore (s : MotorState) (n sp0 : Int) : MotorState × MoveResult × MoveLog :=
  let d : Int := if sp0 ≥ 0 then 1 else -1
  let sp1 : Int := if sp0 < 0 then -sp0 else sp0
  let sA := { s with direction := some d }
  let sp : Int := applyLimits sA.MIN_SPEED sA.MAX_SPEED sp1
  let acc0 : Int := pyTrunc ((sp : Rat) / (sA.acceleration_factor : Rat))
  let accQ : Rat := if (acc0 : Rat) > (n : Rat) / 2 then (n : Rat) / 2 else (acc0 : Rat)
  let constQ : Rat := (n : Rat) - 2 * accQ
  let r1 := linear_acceleration sA accQ true
  let sp2 : Int := if sp > r1.1.actual_speed then r1.1.actual_speed else sp
  let r2 := move_with_constant_speed r1.1 constQ sp2
  let r3 := linear_acceleration r2.1 accQ false
  (r3.1, MoveResult.ok, (r1.2.app r2.2).app r3.2)

/-- Stepper.move (lines 110-159): the validation ladder of the source in
order (step_num None, speed None, int(step_num) with TypeError and ValueError
both caught, step_num < 0, int(speed)), then the motion profile. -/
def move (s : MotorState) (step_num speed : PyVal) : MotorState × MoveResult × MoveLog :=
  if step_num = PyVal.vnone then
    (s, MoveResult.invalid ("Invalid input. You should choose a value for *step_num*"),
     MoveLog.empty)
  else if speed = PyVal.vnone then
    (s, MoveResult.invalid
      ("Invalid input. You should choose a value for *speed*. A possible value could be 250 step/s"),
     MoveLog.empty)
  else
    match pyInt? step_num with
    | .error _ =>
        (s, MoveResult.invalid ("Invalid input. step_num has to be an integer"), MoveLog.empty)
    | .ok n =>
        if n < 0 then
          (s, MoveResult.invalid ("Invalid input. step_num has to be positive"), MoveLog.empty)
        else
          match pyInt? speed with
          | .error _ =>
              (s, MoveResult.invalid ("Invalid input. speed has to be an integer"), MoveLog.empty)
          | .ok sp0 => moveCore s n sp0

/-- Exceptions that can escape Stepper construction: ConfigurationError from
check_pins, or an uncaught TypeError from int() applied to a value of
non-numeric type (the source only catches ValueError around each int call). -/
inductive PyExc where
  | configurationError (msg : String)
  | typeError
  deriving DecidableEq

/-- One try/except ValueError block of Stepper.check_pins: a ValueError from
int() becomes a ConfigurationError, a TypeError propagates uncaught. -/
def checkOne (v : PyVal) (msg : String) : Except PyExc Int :=
  match pyInt? v with
  | .ok n => .ok n
  | .error ConvErr.valueError => .error (PyExc.configurationError msg)
  | .error ConvErr.typeError => .error PyExc.typeError

/-- Stepper.check_pins (lines 63-94): convert the four pin ids, check each is
within range(0, 17), check the four are pairwise distinct (len(set) == 4),
and return the pin list assigned to self.inp. -/
def check_pins (i1 i2 i3 i4 : PyVal) : Except PyExc (List Int) := do
  let n1 ← checkOne i1 ("The first pin ID is not an integer")
  let n2 ← checkOne i2 ("The second pin ID is not an integer")
  let n3 ← checkOne i3 ("The third pin ID is not an integer")
  let n4 ← checkOne i4 ("The fourth pin ID is not an integer")
  let input_pins := [n1, n2, n3, n4]
  if ¬ (0 ≤ n1 ∧ n1 ≤ 16) then
    .error (PyExc.configurationError
      ("The pin number 1 does not exist. Valid pin numbers are from 0 to 16."))
  else if ¬ (0 ≤ n2 ∧ n2 ≤ 16) then
    .error (PyExc.configurationError
      ("The pin number 2 does not exist. Valid pin numbers are from 0 to 16."))
  else if ¬ (0 ≤ n3 ∧ n3 ≤ 16) then
    .error (PyExc.configurationError
      ("The pin number 3 does not exist. Valid pin numbers are from 0 to 16."))
  else if ¬ (0 ≤ n4 ∧ n4 ≤ 16) then
    .error (PyExc.configurationError
      ("The pin number 4 does not exist. Valid pin numbers are from 0 to 16."))
  else if input_pins.dedup.length ≠ 4 then
    .error (PyExc.configurationError
      ("There are two different pins with the same number. Pins must have unique numbers"))
  else
    .ok input_pins

/-- Stepper.__init__ (lines 12-61): check_pins runs before any pinMode or
digitalWrite, so a failing construction performs no pin configuration; on
success the four pins are configured as outputs and driven low, and the state
fields receive the literal initial values of the source (num_step 0,
direction None, speeds 0, acceleration_factor 1, MIN_SPEED 10, MAX_SPEED
500). -/
def stepperInit (i1 i2 i3 i4 : PyVal) : Except PyExc (MotorState × List (Int × Int)) :=
  match check_pins i1 i2 i3 i4 with
  | .error e => .error e
  | .ok pins =>
      .ok ({ inp := pins, half := halfTable, num_step := 0, direction := none,
             actspeed := 0, actual_speed := 0, acceleration_factor := 1,
             MIN_SPEED := 10, MAX_SPEED := 500 },
           pins.map (fun p => (p, 0)))

/-- A Stepper constructed with the pin assignment of the usage example at the
bottom of the source file, Stepper(7, 0, 2, 3). -/
def sampleStepper : MotorState :=
  { inp := [7, 0, 2, 3], half := halfTable, num_step := 0, direction := none,
    actspeed := 0, actual_speed := 0, acceleration_factor := 1,
    MIN_SPEED := 10, MAX_SPEED := 500 }

/-! ### Derived quantities of a validated move (acceleration factor 1) -/

/-- Direction selected by Stepper.move lines 134-138 from the sign of the
requested speed: nonnegative gives 1, negative gives -1. -/
def dirOf (sp0 : Int) : Int := if sp0 ≥ 0 then 1 else -1

/-- The clamped speed magnitude of a move request: the absolute value taken at
line 138 with the limits of lines 141-144 applied. -/
def clampedSpeed (s : MotorState) (sp0 : Int) : Int :=
  applyLimits s.MIN_SPEED s.MAX_SPEED (if sp0 < 0 then -sp0 else sp0)

/-- Number of steps each ramp phase executes when acceleration_factor is 1:
floor(n / 2) when the clamp of line 150 triggers (n < 2 * m), else m. -/
def rampIters (n m : Int) : Nat := if n < 2 * m then (n / 2).toNat else m.toNat

/-- Number of steps the constant-speed phase executes when acceleration_factor
is 1: zero when the clamp of line 150 triggers, else n - 2 * m. -/
def cruiseIters (n m : Int) : Nat := if n < 2 * m then 0 else (n - 2 * m).toNat

/-- The speed handed to the constant-speed phase after the correction of lines
156-157, for acceleration_factor 1: the truncated ramp reaches
floor(n / 2) + 1 when the clamp triggers, else the ramp overshoots to m + 1
and the correction caps the cruise speed back to m. -/
def cruiseOf (n m : Int) : Int := if n < 2 * m then n / 2 + 1 else m

/-- Number of steps a completed move actually executes when
acceleration_factor is 1: the requested n, except that an odd n loses one
step when the acceleration clamp of line 150 truncates the ramps to the
real value n / 2. -/
def effectiveSteps (n m : Int) : Int := if n < 2 * m then n - n % 2 else n

/-! ### Arithmetic helper lemmas -/

lemma pyTrunc_intCast (a : Int) : pyTrunc (a : Rat) = a := by
  unfold pyTrunc
  split
  · exact Int.floor_intCast a
  · rw [← Int.cast_neg, Int.floor_intCast]; ring

lemma pyTrunc_zero : pyTrunc 0 = 0 := by
  simp [pyTrunc]

lemma floor_intCast_div_two (n : Int) : ⌊(n : Rat) / 2⌋ = n / 2 := by
  rw [Int.floor_eq_iff]
  constructor
  · rw [le_div_iff (by norm_num : (0 : Rat) < 2)]
    exact_mod_cast (by omega : (n / 2) * 2 ≤ n)
  · rw [div_lt_iff (by norm_num : (0 : Rat) < 2)]
    exact_mod_cast (by omega : n < (n / 2 + 1) * 2)

lemma cast_gt_half_iff (m n : Int) : ((m : Rat) > (n : Rat) / 2) ↔ n < 2 * m := by
  rw [gt_iff_lt, div_lt_iff (by norm_num : (0 : Rat) < 2)]
  constructor
  · intro h
    have h2 : (n : Int) < m * 2 := by exact_mod_cast h
    omega
  · intro h
    have h2 : ((n : Rat)) < (m : Rat) * 2 := by exact_mod_cast (by omega : (n : Int) < m * 2)
    exact h2

lemma applyLimits_min_le (minS maxS sp : Int) : minS ≤ applyLimits minS maxS sp := by
  simp only [applyLimits]
  by_cases h1 : sp > maxS
  · rw [if_pos h1]; split <;> omega
  · rw [if_neg h1]; split <;> omega

lemma applyLimits_of_gt_max (minS maxS sp : Int) (h1 : minS ≤ maxS) (h2 : sp > maxS) :
    applyLimits minS maxS sp = maxS := by
  simp only [applyLimits, if_pos h2]
  split <;> omega

lemma applyLimits_of_lt_min (minS maxS sp : Int) (h1 : minS ≤ maxS) (h2 : sp < minS) :
    applyLimits minS maxS sp = minS := by
  simp only [applyLimits]
  rw [if_neg (by omega : ¬ sp > maxS), if_pos h2]

/-! ### Loop characterization lemmas -/

lemma accelLoop_fst (a : Int) (k : Nat) (s : MotorState) :
    (accelLoop s a k).1 =
      { s with num_step := s.num_step + (k : Int) * (s.direction.getD 0),
               actual_speed := s.actual_speed + (k : Int) * (s.acceleration_factor * a) } := by
  induction k generalizing s with
  | zero => simp [accelLoop]
  | succ k ih =>
      simp only [accelLoop]
      rw [ih]
      cases s
      simp only [MotorState.mk.injEq, and_true, true_and]
      constructor
      · push_cast; ring
      · push_cast; ring

lemma accelLoop_divisors (a : Int) (k : Nat) (s : MotorState) :
    (accelLoop s a k).2.divisors =
      (List.range k).map
        (fun (i : Nat) => s.actual_speed + (i : Int) * (s.acceleration_factor * a)) := by
  induction k generalizing s with
  | zero => simp [accelLoop, MoveLog.empty]
  | succ k ih =>
      simp only [accelLoop]
      rw [ih]
      rw [List.range_succ_eq_map, List.map_cons, List.map_map]
      refine congrArg₂ List.cons (by simp) ?_
      apply List.map_congr_left
      intro i _
      simp only [Function.comp_apply]
      push_cast
      ring

lemma accelLoop_sleeps_length (a : Int) (k : Nat) (s : MotorState) :
    (accelLoop s a k).2.sleeps.length = k := by
  induction k generalizing s with
  | zero => simp [accelLoop, MoveLog.empty]
  | succ k ih =>
      simp only [accelLoop, List.length_cons]
      rw [ih]

lemma constLoop_fst (t : Rat) (k : Nat) (s : MotorState) :
    (constLoop s t k).1 =
      { s with num_step := s.num_step + (k : Int) * (s.direction.getD 0) } := by
  induction k generalizing s with
  | zero => simp [constLoop]
  | succ k ih =>
      simp only [constLoop]
      rw [ih]
      cases s
      simp only [MotorState.mk.injEq, and_true, true_and]
      push_cast; ring

lemma constLoop_divisors (t : Rat) (k : Nat) (s : MotorState) :
    (constLoop s t k).2.divisors = [] := by
  induction k generalizing s with
  | zero => simp [constLoop, MoveLog.empty]
  | succ k ih =>
      simp only [constLoop]
      rw [ih]

lemma constLoop_sleeps_length (t : Rat) (k : Nat) (s : MotorState) :
    (constLoop s t k).2.sleeps.length = k := by
  induction k generalizing s with
  | zero => simp [constLoop, MoveLog.empty]
  | succ k ih =>
      simp only [constLoop, List.length_cons]
      rw [ih]

/-! ### Phase-function characterization lemmas -/

lemma linear_acceleration_true_fst (s : MotorState) (q : Rat) :
    (linear_acceleration s q true).1 =
      { s with num_step := s.num_step + ((⌊q⌋.toNat : Nat) : Int) * (s.direction.getD 0),
               actual_speed := 1 * s.acceleration_factor
                 + ((⌊q⌋.toNat : Nat) : Int) * (s.acceleration_factor * 1) } := by
  simp only [linear_acceleration, if_true]
  rw [accelLoop_fst]

lemma linear_acceleration_true_divisors (s : MotorState) (q : Rat) :
    (linear_acceleration s q true).2.divisors =
      (List.range (⌊q⌋.toNat)).map
        (fun (i : Nat) => 1 * s.acceleration_factor + (i : Int) * (s.acceleration_factor * 1)) := by
  simp only [linear_acceleration, if_true]
  rw [accelLoop_divisors]

lemma linear_acceleration_true_sleeps_length (s : MotorState) (q : Rat) :
    (linear_acceleration s q true).2.sleeps.length = ⌊q⌋.toNat := by
  simp only [linear_acceleration, if_true]
  rw [accelLoop_sleeps_length]

lemma linear_acceleration_false_fst (s : MotorState) (q : Rat) :
    (linear_acceleration s q false).1 =
      { s with num_step := s.num_step + ((⌊q⌋.toNat : Nat) : Int) * (s.direction.getD 0),
               actual_speed := 0 } := by
  simp only [linear_acceleration, if_false, Bool.false_eq_true, reduceIte]
  rw [accelLoop_fst]

lemma linear_acceleration_false_divisors (s : MotorState) (q : Rat) :
    (linear_acceleration s q false).2.divisors =
      (List.range (⌊q⌋.toNat)).map
        (fun (i : Nat) => s.actual_speed + (i : Int) * (s.acceleration_factor * (-1))) := by
  simp only [linear_acceleration, Bool.false_eq_true, reduceIte]
  rw [accelLoop_divisors]

lemma linear_acceleration_false_sleeps_length (s : MotorState) (q : Rat) :
    (linear_acceleration s q false).2.sleeps.length = ⌊q⌋.toNat := by
  simp only [linear_acceleration, Bool.false_eq_true, reduceIte]
  rw [accelLoop_sleeps_length]

lemma move_with_constant_speed_fst (s : MotorState) (q : Rat) (speed : Int) :
    (move_with_constant_speed s q speed).1 =
      { s with num_step := s.num_step + (((pyTrunc q).toNat : Nat) : Int) * (s.direction.getD 0),
               actual_speed := speed } := by
  simp only [move_with_constant_speed]
  rw [constLoop_fst]

lemma move_with_constant_speed_divisors (s : MotorState) (q : Rat) (speed : Int) :
    (move_with_constant_speed s q speed).2.divisors = [speed] := by
  simp only [move_with_constant_speed]
  rw [constLoop_divisors]

lemma move_with_constant_speed_sleeps_length (s : MotorState) (q : Rat) (speed : Int) :
    (move_with_constant_speed s q speed).2.sleeps.length = (pyTrunc q).toNat := by
  simp only [move_with_constant_speed]
  rw [constLoop_sleeps_length]

/-- Full characterization of moveCore for the configuration every constructed
Stepper has (acceleration_factor 1, positive MIN_SPEED): final state, the
divisor of every delay computation, and the number of sleeps. -/
theorem moveCore_spec (s : MotorState) (n sp0 : Int)
    (hf : s.acceleration_factor = 1) (hmin : 1 ≤ s.MIN_SPEED) (hn : 0 ≤ n) :
    (moveCore s n sp0).1 =
      { s with
        num_step := s.num_step + dirOf sp0 *
          (2 * (rampIters n (clampedSpeed s sp0) : Int)
            + (cruiseIters n (clampedSpeed s sp0) : Int)),
        direction := some (dirOf sp0),
        actual_speed := 0 } ∧
    (moveCore s n sp0).2.2.divisors =
      ((List.range (rampIters n (clampedSpeed s sp0))).map
        (fun (i : Nat) => 1 + (i : Int))) ++
        cruiseOf n (clampedSpeed s sp0) ::
          ((List.range (rampIters n (clampedSpeed s sp0))).map
            (fun (i : Nat) => cruiseOf n (clampedSpeed s sp0) - (i : Int))) ∧
    (moveCore s n sp0).2.2.sleeps.length =
      2 * rampIters n (clampedSpeed s sp0) + cruiseIters n (clampedSpeed s sp0) := by
  obtain ⟨inp, half, ns, dir, asp, av, f, mn, mx⟩ := s
  replace hf : f = 1 := hf
  replace hmin : 1 ≤ mn := hmin
  subst hf
  simp only [moveCore, clampedSpeed, dirOf, rampIters, cruiseIters, cruiseOf]
  set dv : Int := if sp0 ≥ 0 then 1 else -1 with hdv
  set spAbs : Int := if sp0 < 0 then -sp0 else sp0 with hspAbs
  set m : Int := applyLimits mn mx spAbs with hm
  have hm1 : 1 ≤ m := le_trans hmin (applyLimits_min_le mn mx spAbs)
  simp only [Int.cast_one, div_one, pyTrunc_intCast, cast_gt_half_iff,
    linear_acceleration_true_fst, linear_acceleration_true_divisors,
    linear_acceleration_true_sleeps_length, move_with_constant_speed_fst,
    move_with_constant_speed_divisors, move_with_constant_speed_sleeps_length,
    linear_acceleration_false_fst, linear_acceleration_false_divisors,
    linear_acceleration_false_sleeps_length, MoveLog.app, Option.getD_some,
    one_mul, mul_one]
  by_cases hcl : n < 2 * m
  · simp only [if_pos hcl, floor_intCast_div_two]
    have hc0 : (n : Rat) - 2 * ((n : Rat) / 2) = 0 := by ring
    simp only [hc0, pyTrunc_zero, Int.toNat_zero]
    have hk : ((n / 2).toNat : Int) = n / 2 := by omega
    simp only [hk]
    have hsp2 : (if m > 1 + n / 2 then 1 + n / 2 else m) = n / 2 + 1 := by
      split <;> omega
    simp only [hsp2]
    refine ⟨?_, ?_, ?_⟩
    · simp only [MotorState.mk.injEq, and_true, true_and]
      push_cast; ring
    · rw [List.append_assoc, List.singleton_append]
      refine congrArg₂ (· ++ ·) ?_ (congrArg₂ List.cons rfl ?_)
      · apply List.map_congr_left; intro i _; ring
      · apply List.map_congr_left; intro i _; ring
    · simp only [List.length_append, linear_acceleration_true_sleeps_length,
        linear_acceleration_false_sleeps_length, move_with_constant_speed_sleeps_length,
        floor_intCast_div_two, pyTrunc_zero, Int.toNat_zero]
      omega
  · simp only [if_neg hcl, Int.floor_intCast]
    have hc1 : (n : Rat) - 2 * (m : Rat) = ((n - 2 * m : Int) : Rat) := by push_cast; ring
    simp only [hc1, pyTrunc_intCast]
    have hk : (m.toNat : Int) = m := by omega
    simp only [hk]
    have hsp2 : (if m > 1 + m then 1 + m else m) = m := by split <;> omega
    simp only [hsp2]
    refine ⟨?_, ?_, ?_⟩
    · simp only [MotorState.mk.injEq, and_true, true_and]
      have hc2 : ((n - 2 * m).toNat : Int) = n - 2 * m := by omega
      rw [hc2]
      ring
    · rw [List.append_assoc, List.singleton_append]
      refine congrArg₂ (· ++ ·) ?_ (congrArg₂ List.cons rfl ?_)
      · apply List.map_congr_left; intro i _; ring
      · apply List.map_congr_left; intro i _; ring
    · simp only [List.length_append, linear_acceleration_true_sleeps_length,
        linear_acceleration_false_sleeps_length, move_with_constant_speed_sleeps_length,
        Int.floor_intCast, pyTrunc_intCast]
      omega

/-! ### Bridge lemmas from move to moveCore -/

/-- On integer arguments with a nonnegative step count the validation ladder
of move passes and move behaves as moveCore. -/
lemma move_valid (s : MotorState) (n sp : Int) (hn : 0 ≤ n) :
    move s (PyVal.vint n) (PyVal.vint sp) = moveCore s n sp := by
  simp only [move, pyInt?, reduceCtorEq, if_false]
  rw [if_neg (by omega : ¬ n < 0)]

/-- moveCore never touches the configuration fields of the state. -/
lemma moveCore_frame (s : MotorState) (n sp0 : Int) :
    (moveCore s n sp0).1.inp = s.inp ∧ (moveCore s n sp0).1.half = s.half ∧
    (moveCore s n sp0).1.actspeed = s.actspeed ∧
    (moveCore s n sp0).1.acceleration_factor = s.acceleration_factor ∧
    (moveCore s n sp0).1.MIN_SPEED = s.MIN_SPEED ∧
    (moveCore s n sp0).1.MAX_SPEED = s.MAX_SPEED := by
  obtain ⟨inp, half, ns, dir, asp, av, f, mn, mx⟩ := s
  simp [moveCore, linear_acceleration_true_fst, move_with_constant_speed_fst,
    linear_acceleration_false_fst]

lemma ramp_cruise_total (n m : Int) (hm : 1 ≤ m) (hn : 0 ≤ n) :
    2 * (rampIters n m : Int) + (cruiseIters n m : Int) = effectiveSteps n m := by
  simp only [rampIters, cruiseIters, effectiveSteps]
  split <;> omega

lemma clampedSpeed_pos (s : MotorState) (sp : Int) (hmin : 1 ≤ s.MIN_SPEED) :
    1 ≤ clampedSpeed s sp :=
  le_trans hmin (applyLimits_min_le _ _ _)

/-- Step-counter effect of a validated move for the constructed
configuration. -/
lemma move_num_step (s : MotorState) (n sp : Int)
    (hf : s.acceleration_factor = 1) (hmin : 1 ≤ s.MIN_SPEED) (hn : 0 ≤ n) :
    (move s (PyVal.vint n) (PyVal.vint sp)).1.num_step =
      s.num_step + dirOf sp * effectiveSteps n (clampedSpeed s sp) := by
  have ht := ramp_cruise_total n (clampedSpeed s sp) (clampedSpeed_pos s sp hmin) hn
  rw [move_valid s n sp hn, (moveCore_spec s n sp hf hmin hn).1, ht]

/-- The divisor recorded by the delay computation of the constant-speed phase
sits right after the rampIters acceleration divisors, and it is cruiseOf: the
clamped speed m when the ramp is not truncated, floor(n / 2) + 1 when it is.
In particular it still equals m at the boundary n = 2 m - 2 or 2 m - 1, where
floor(n / 2) + 1 = m. -/
lemma move_cruise_divisor (s : MotorState) (n sp : Int)
    (hf : s.acceleration_factor = 1) (hmin : 1 ≤ s.MIN_SPEED) (hn : 0 ≤ n) :
    (move s (PyVal.vint n) (PyVal.vint sp)).2.2.divisors.get?
        (rampIters n (clampedSpeed s sp)) = some (cruiseOf n (clampedSpeed s sp)) := by
  rw [move_valid s n sp hn, (moveCore_spec s n sp hf hmin hn).2.1]
  have hlen : ((List.range (rampIters n (clampedSpeed s sp))).map
      (fun (i : Nat) => 1 + (i : Int))).length = rampIters n (clampedSpeed s sp) := by
    rw [List.length_map, List.length_range]
  rw [List.get?_append_right (le_of_eq hlen), hlen, Nat.sub_self]
  rfl

/-! ### Claim theorems -/

/-- Claim C4 (confirmed): for every step counter value and direction in
{1, -1}, the phase (num_step mod 8) * direction lies in the signed range
-7..7, the negative-index-wrapping lookup half[phase] is in bounds, and it
selects the same row as the normalized index
((num_step * direction) mod 8 + 8) mod 8. -/
theorem c4_phase_indexing (n d : Int) (hd : d = 1 ∨ d = -1) :
    (-7 ≤ phaseOf n d ∧ phaseOf n d ≤ 7) ∧
    ∃ row, pyIndex halfTable (phaseOf n d) = some row ∧
      halfTable.get? ((n * d % 8 + 8) % 8).toNat = some row := by
  have hlen : halfTable.length = 8 := rfl
  rcases hd with rfl | rfl
  · refine ⟨⟨?_, ?_⟩, ?_⟩
    · simp only [phaseOf, mul_one]; omega
    · simp only [phaseOf, mul_one]; omega
    · simp only [phaseOf, mul_one, pyIndex]
      rw [if_pos (by omega : (0 : Int) ≤ n % 8)]
      have hidx : (n % 8 + 8) % 8 = n % 8 := by omega
      rw [hidx]
      have hlt : (n % 8).toNat < halfTable.length := by rw [hlen]; omega
      exact ⟨halfTable.get ⟨(n % 8).toNat, hlt⟩, List.get?_eq_get hlt, List.get?_eq_get hlt⟩
  · refine ⟨⟨?_, ?_⟩, ?_⟩
    · simp only [phaseOf, mul_neg_one]; omega
    · simp only [phaseOf, mul_neg_one]; omega
    · simp only [phaseOf, mul_neg_one, pyIndex]
      by_cases h0 : n % 8 = 0
      · rw [if_pos (by omega : (0 : Int) ≤ -(n % 8))]
        have hidx : (-n % 8 + 8) % 8 = -(n % 8) := by omega
        rw [hidx]
        have hlt : (-(n % 8)).toNat < halfTable.length := by rw [hlen]; omega
        exact ⟨halfTable.get ⟨(-(n % 8)).toNat, hlt⟩,
          List.get?_eq_get hlt, List.get?_eq_get hlt⟩
      · rw [if_neg (by omega : ¬ (0 : Int) ≤ -(n % 8))]
        have hlen2 : ((halfTable.length : Nat) : Int) = 8 := by rw [hlen]; rfl
        rw [hlen2, if_pos (by omega : (0 : Int) ≤ 8 + -(n % 8))]
        have hidx : (-n % 8 + 8) % 8 = 8 + -(n % 8) := by omega
        rw [hidx]
        have hlt : (8 + -(n % 8)).toNat < halfTable.length := by rw [hlen]; omega
        exact ⟨halfTable.get ⟨(8 + -(n % 8)).toNat, hlt⟩,
          List.get?_eq_get hlt, List.get?_eq_get hlt⟩

/-- Witness for C4 at num_step 13 and direction -1. -/
theorem c4_phase_indexing_witness :
    ((-1 : Int) = 1 ∨ (-1 : Int) = -1) ∧
    ((-7 ≤ phaseOf 13 (-1) ∧ phaseOf 13 (-1) ≤ 7) ∧
      ∃ row, pyIndex halfTable (phaseOf 13 (-1)) = some row ∧
        halfTable.get? ((13 * (-1) % 8 + 8) % 8).toNat = some row) :=
  ⟨Or.inr rfl, c4_phase_indexing 13 (-1) (Or.inr rfl)⟩

/-- Claim C3 (confirmed): move(None, 100), move(-5, 100) and move(100, "abc")
each return the descriptive validation failure of the source, write no pin,
sleep no delay, and leave the whole MotorState unchanged. -/
theorem c3_invalid_inputs_no_effect (s : MotorState) :
    move s PyVal.vnone (PyVal.vint 100) =
      (s, MoveResult.invalid ("Invalid input. You should choose a value for *step_num*"),
        MoveLog.empty) ∧
    move s (PyVal.vint (-5)) (PyVal.vint 100) =
      (s, MoveResult.invalid ("Invalid input. step_num has to be positive"), MoveLog.empty) ∧
    move s (PyVal.vint 100) (PyVal.vstr ("abc")) =
      (s, MoveResult.invalid ("Invalid input. speed has to be an integer"), MoveLog.empty) :=
  ⟨rfl, rfl, rfl⟩

/-- Claim C7 (code bug): a pin id of non-numeric type such as None makes
int() raise TypeError, which check_pins does not catch (it only catches
ValueError), so construction fails with an uncaught TypeError instead of the
ConfigurationError the claim demands. -/
theorem c7_none_pin_uncaught_typeerror :
    stepperInit PyVal.vnone (PyVal.vint 0) (PyVal.vint 2) (PyVal.vint 3) =
      Except.error PyExc.typeError := rfl

/-- Claim C10 (confirmed): every move call leaves the pin assignment, the
phase table, the acceleration factor and both speed limits (and the unused
actspeed field) unchanged. -/
theorem c10_move_mutates_only_motion_fields (s : MotorState) (a b : PyVal) :
    (move s a b).1.inp = s.inp ∧ (move s a b).1.half = s.half ∧
    (move s a b).1.actspeed = s.actspeed ∧
    (move s a b).1.acceleration_factor = s.acceleration_factor ∧
    (move s a b).1.MIN_SPEED = s.MIN_SPEED ∧
    (move s a b).1.MAX_SPEED = s.MAX_SPEED := by
  simp only [move]
  split
  · exact ⟨rfl, rfl, rfl, rfl, rfl, rfl⟩
  · split
    · exact ⟨rfl, rfl, rfl, rfl, rfl, rfl⟩
    · split
      · exact ⟨rfl, rfl, rfl, rfl, rfl, rfl⟩
      · split
        · exact ⟨rfl, rfl, rfl, rfl, rfl, rfl⟩
        · split
          · exact ⟨rfl, rfl, rfl, rfl, rfl, rfl⟩
          · exact moveCore_frame s _ _

/-- Claim C1 (amended): after a completed move the step counter has changed
by direction * stepCount whenever the acceleration clamp does not truncate
the ramps or stepCount is even; when the clamp triggers on an odd stepCount
the fractional ramp length floor-truncates and the move executes exactly
stepCount - 1 steps (effectiveSteps). -/
theorem c1_step_counter (s : MotorState) (n sp : Int)
    (hf : s.acceleration_factor = 1) (hmin : 1 ≤ s.MIN_SPEED) (hn : 0 ≤ n) :
    (move s (PyVal.vint n) (PyVal.vint sp)).1.num_step =
      s.num_step + dirOf sp * effectiveSteps n (clampedSpeed s sp) :=
  move_num_step s n sp hf hmin hn

/-- Witness for C1 at move(5, 100) from the sample Stepper. -/
theorem c1_step_counter_witness :
    sampleStepper.acceleration_factor = 1 ∧ 1 ≤ sampleStepper.MIN_SPEED ∧
    0 ≤ (5 : Int) ∧
    (move sampleStepper (PyVal.vint 5) (PyVal.vint 100)).1.num_step =
      sampleStepper.num_step + dirOf 100 * effectiveSteps 5 (clampedSpeed sampleStepper 100) :=
  ⟨rfl, by decide, by decide, c1_step_counter sampleStepper 5 100 rfl (by decide) (by decide)⟩

/-- Counterexample to C1 as stated: move(1, 100) executes zero steps (the
clamped ramp length 1 / 2 floors to zero iterations), so the counter does not
change by direction * stepCount = 1. -/
theorem c1_step_counter_counterexample :
    ¬ ((move sampleStepper (PyVal.vint 1) (PyVal.vint 100)).1.num_step =
        sampleStepper.num_step + 1 * 1) := by
  intro hc
  rw [move_num_step sampleStepper 1 100 rfl (by decide) (by decide)] at hc
  revert hc
  decide

/-- Claim C2 (amended): the cruise speed (the divisor of the constant-speed
phase delay, recorded right after the rampIters acceleration divisors) is
exactly MAX_SPEED = 500 for an over-limit request whenever
stepCount >= 2 * 500 - 2, and exactly MIN_SPEED = 10 for an under-limit
request whenever stepCount >= 2 * 10 - 2: at stepCount = 2 m - 2 and
2 m - 1 the truncated ramp still reaches exactly m.  Below those thresholds
the cruise speed is floor(stepCount / 2) + 1, strictly less than the clamped
value. -/
theorem c2_speed_clamping (s : MotorState) (n sp : Int)
    (hf : s.acceleration_factor = 1) (hmin : s.MIN_SPEED = 10) (hmax : s.MAX_SPEED = 500)
    (hn : 0 ≤ n) :
    (500 < sp → 998 ≤ n →
      (move s (PyVal.vint n) (PyVal.vint sp)).2.2.divisors.get? (rampIters n 500) =
        some 500) ∧
    (0 < sp → sp < 10 → 18 ≤ n →
      (move s (PyVal.vint n) (PyVal.vint sp)).2.2.divisors.get? (rampIters n 10) =
        some 10) ∧
    (500 < sp → n < 998 →
      (move s (PyVal.vint n) (PyVal.vint sp)).2.2.divisors.get? (rampIters n 500) =
        some (n / 2 + 1) ∧ n / 2 + 1 < 500) ∧
    (0 < sp → sp < 10 → n < 18 →
      (move s (PyVal.vint n) (PyVal.vint sp)).2.2.divisors.get? (rampIters n 10) =
        some (n / 2 + 1) ∧ n / 2 + 1 < 10) := by
  have hcs_max : 500 < sp → clampedSpeed s sp = 500 := by
    intro hsp
    unfold clampedSpeed
    rw [hmin, hmax, if_neg (by omega : ¬ sp < 0)]
    exact applyLimits_of_gt_max 10 500 sp (by omega) (by omega)
  have hcs_min : 0 < sp → sp < 10 → clampedSpeed s sp = 10 := by
    intro hsp1 hsp2
    unfold clampedSpeed
    rw [hmin, hmax, if_neg (by omega : ¬ sp < 0)]
    exact applyLimits_of_lt_min 10 500 sp (by omega) (by omega)
  refine ⟨?_, ?_, ?_, ?_⟩
  · intro hsp hn2
    have h := move_cruise_divisor s n sp hf (by omega) hn
    rw [hcs_max hsp] at h
    have hcr : cruiseOf n 500 = 500 := by
      simp only [cruiseOf]; split <;> omega
    rw [hcr] at h
    exact h
  · intro hsp1 hsp2 hn2
    have h := move_cruise_divisor s n sp hf (by omega) hn
    rw [hcs_min hsp1 hsp2] at h
    have hcr : cruiseOf n 10 = 10 := by
      simp only [cruiseOf]; split <;> omega
    rw [hcr] at h
    exact h
  · intro hsp hn2
    have h := move_cruise_divisor s n sp hf (by omega) hn
    rw [hcs_max hsp] at h
    have hcr : cruiseOf n 500 = n / 2 + 1 := by
      simp only [cruiseOf]; rw [if_pos (by omega : n < 2 * 500)]
    rw [hcr] at h
    exact ⟨h, by omega⟩
  · intro hsp1 hsp2 hn2
    have h := move_cruise_divisor s n sp hf (by omega) hn
    rw [hcs_min hsp1 hsp2] at h
    have hcr : cruiseOf n 10 = n / 2 + 1 := by
      simp only [cruiseOf]; rw [if_pos (by omega : n < 2 * 10)]
    rw [hcr] at h
    exact ⟨h, by omega⟩

/-- Witness for C2 at move(998, 501) from the sample Stepper (a boundary
case: 998 = 2 * 500 - 2, the shortest move that still cruises at 500). -/
theorem c2_speed_clamping_witness :
    sampleStepper.acceleration_factor = 1 ∧ sampleStepper.MIN_SPEED = 10 ∧
    sampleStepper.MAX_SPEED = 500 ∧ 0 ≤ (998 : Int) ∧
    ((500 < (501 : Int) → 998 ≤ (998 : Int) →
      (move sampleStepper (PyVal.vint 998) (PyVal.vint 501)).2.2.divisors.get?
        (rampIters 998 500) = some 500) ∧
    (0 < (501 : Int) → (501 : Int) < 10 → 18 ≤ (998 : Int) →
      (move sampleStepper (PyVal.vint 998) (PyVal.vint 501)).2.2.divisors.get?
        (rampIters 998 10) = some 10) ∧
    (500 < (501 : Int) → (998 : Int) < 998 →
      (move sampleStepper (PyVal.vint 998) (PyVal.vint 501)).2.2.divisors.get?
        (rampIters 998 500) = some ((998 : Int) / 2 + 1) ∧ (998 : Int) / 2 + 1 < 500) ∧
    (0 < (501 : Int) → (501 : Int) < 10 → (998 : Int) < 18 →
      (move sampleStepper (PyVal.vint 998) (PyVal.vint 501)).2.2.divisors.get?
        (rampIters 998 10) = some ((998 : Int) / 2 + 1) ∧ (998 : Int) / 2 + 1 < 10)) :=
  ⟨rfl, rfl, rfl, by decide,
    c2_speed_clamping sampleStepper 998 501 rfl rfl rfl (by decide)⟩

/-- Counterexample to C2 as stated: move(10, 1000) requests a speed above
MAX_SPEED but the short move truncates the ramp, and the constant-speed phase
runs at speed 6, not MAX_SPEED = 500 (its delay divisor, at position
rampIters after the ramp divisors, is 6). -/
theorem c2_speed_clamping_counterexample :
    ¬ ((move sampleStepper (PyVal.vint 10) (PyVal.vint 1000)).2.2.divisors.get?
        (rampIters 10 (clampedSpeed sampleStepper 1000)) = some 500) := by
  intro hc
  rw [move_valid sampleStepper 10 1000 (by decide),
    (moveCore_spec sampleStepper 10 1000 rfl (by decide) (by decide)).2.1] at hc
  revert hc
  decide

/-- Claim C5 (amended): when floor(S / accelerationFactor) > stepCount / 2
(that is stepCount < 2 S for factor 1), the constant-speed phase executes
zero steps (all sleeps belong to the two trunc ramps) and the peak
instantaneous speed never exceeds S; equality peak = S is reached when
S = floor(stepCount / 2) + 1, so strictly less-than fails. -/
theorem c5_short_move_truncation (s : MotorState) (n sp : Int)
    (hf : s.acceleration_factor = 1) (hmin : 1 ≤ s.MIN_SPEED) (hn : 0 ≤ n)
    (hshort : n < 2 * clampedSpeed s sp) :
    (move s (PyVal.vint n) (PyVal.vint sp)).2.2.sleeps.length = 2 * (n / 2).toNat ∧
    ∀ v ∈ (move s (PyVal.vint n) (PyVal.vint sp)).2.2.divisors,
      v ≤ clampedSpeed s sp := by
  obtain ⟨h1, h2, h3⟩ := moveCore_spec s n sp hf hmin hn
  have hm1 := clampedSpeed_pos s sp hmin
  rw [move_valid s n sp hn]
  constructor
  · rw [h3]
    simp only [rampIters, cruiseIters, if_pos hshort]
    omega
  · rw [h2]
    intro v hv
    simp only [List.mem_append, List.mem_cons, List.mem_map, List.mem_range,
      rampIters, cruiseOf, if_pos hshort] at hv
    rcases hv with ⟨i, hi, rfl⟩ | hv | ⟨i, hi, rfl⟩
    · omega
    · omega
    · omega

/-- Witness for C5 at move(4, 100) from the sample Stepper. -/
theorem c5_short_move_truncation_witness :
    sampleStepper.acceleration_factor = 1 ∧ 1 ≤ sampleStepper.MIN_SPEED ∧
    0 ≤ (4 : Int) ∧ 4 < 2 * clampedSpeed sampleStepper 100 ∧
    ((move sampleStepper (PyVal.vint 4) (PyVal.vint 100)).2.2.sleeps.length =
      2 * ((4 : Int) / 2).toNat ∧
    ∀ v ∈ (move sampleStepper (PyVal.vint 4) (PyVal.vint 100)).2.2.divisors,
      v ≤ clampedSpeed sampleStepper 100) :=
  ⟨rfl, by decide, by decide, by decide,
    c5_short_move_truncation sampleStepper 4 100 rfl (by decide) (by decide) (by decide)⟩

/-- Counterexample to C5 as stated: move(20, 11) satisfies the short-move
condition (2 * 11 > 20) yet the peak instantaneous speed equals S = 11, so
the strict inequality of the claim fails. -/
theorem c5_short_move_truncation_counterexample :
    2 * clampedSpeed sampleStepper 11 > 20 ∧
    ¬ (∀ v ∈ (move sampleStepper (PyVal.vint 20) (PyVal.vint 11)).2.2.divisors,
        v < clampedSpeed sampleStepper 11) := by
  refine ⟨by decide, ?_⟩
  intro hc
  rw [move_valid sampleStepper 20 11 (by decide),
    (moveCore_spec sampleStepper 20 11 rfl (by decide) (by decide)).2.1] at hc
  revert hc
  decide

/-- Claim C6 (amended): move(20, 100) with the constructed configuration
clamps the ramps to 10 steps each, skips the constant phase, executes 20
steps total and moves the counter by +20, but the peak instantaneous speed is
11 steps per second (the ramp starts at 1 and increments after each of the
10 steps), not the 10 the claim states. -/
theorem c6_move_20_100 :
    (move sampleStepper (PyVal.vint 20) (PyVal.vint 100)).1.num_step = 20 ∧
    (move sampleStepper (PyVal.vint 20) (PyVal.vint 100)).2.2.sleeps.length = 20 ∧
    (move sampleStepper (PyVal.vint 20) (PyVal.vint 100)).2.2.divisors.foldr max 0 = 11 := by
  have hv := move_valid sampleStepper 20 100 (by decide)
  have hs := moveCore_spec sampleStepper 20 100 rfl (by decide) (by decide)
  refine ⟨?_, ?_, ?_⟩
  · rw [move_num_step sampleStepper 20 100 rfl (by decide) (by decide)]
    decide
  · rw [hv, hs.2.2]
    decide
  · rw [hv, hs.2.1]
    decide

/-- Counterexample to C6 as stated: the peak instantaneous speed of
move(20, 100) is not 10. -/
theorem c6_move_20_100_counterexample :
    ¬ ((move sampleStepper (PyVal.vint 20) (PyVal.vint 100)).2.2.divisors.foldr max 0
        = 10) := by
  intro hc
  rw [move_valid sampleStepper 20 100 (by decide),
    (moveCore_spec sampleStepper 20 100 rfl (by decide) (by decide)).2.1] at hc
  revert hc
  decide

/-- Claim C8 (confirmed): during any validated move every delay computation
1 / actual_speed divides by a strictly positive speed (the acceleration
phase starts at acceleration_factor, the cruise speed is at least 1, the
deceleration phase never reaches 0 inside the loop), and the speed is forced
to exactly 0 only after the deceleration loop. -/
theorem c8_positive_divisors (s : MotorState) (n sp : Int)
    (hf : s.acceleration_factor = 1) (hmin : 1 ≤ s.MIN_SPEED) (hn : 0 ≤ n) :
    (∀ v ∈ (move s (PyVal.vint n) (PyVal.vint sp)).2.2.divisors, 0 < v) ∧
    (move s (PyVal.vint n) (PyVal.vint sp)).1.actual_speed = 0 := by
  obtain ⟨h1, h2, h3⟩ := moveCore_spec s n sp hf hmin hn
  have hm1 := clampedSpeed_pos s sp hmin
  rw [move_valid s n sp hn]
  constructor
  · rw [h2]
    intro v hv
    by_cases hcl : n < 2 * clampedSpeed s sp
    · simp only [List.mem_append, List.mem_cons, List.mem_map, List.mem_range,
        rampIters, cruiseOf, if_pos hcl] at hv
      rcases hv with ⟨i, hi, rfl⟩ | hv | ⟨i, hi, rfl⟩ <;> omega
    · simp only [List.mem_append, List.mem_cons, List.mem_map, List.mem_range,
        rampIters, cruiseOf, if_neg hcl] at hv
      rcases hv with ⟨i, hi, rfl⟩ | hv | ⟨i, hi, rfl⟩ <;> omega
  · rw [h1]

/-- Witness for C8 at move(5, 100) from the sample Stepper. -/
theorem c8_positive_divisors_witness :
    sampleStepper.acceleration_factor = 1 ∧ 1 ≤ sampleStepper.MIN_SPEED ∧
    0 ≤ (5 : Int) ∧
    ((∀ v ∈ (move sampleStepper (PyVal.vint 5) (PyVal.vint 100)).2.2.divisors, 0 < v) ∧
    (move sampleStepper (PyVal.vint 5) (PyVal.vint 100)).1.actual_speed = 0) :=
  ⟨rfl, by decide, by decide,
    c8_positive_divisors sampleStepper 5 100 rfl (by decide) (by decide)⟩

/-- Claim C9 (amended): for a strictly positive speed magnitude S,
move(N, S) followed by move(N, -S) returns the step counter to its original
value (both moves execute the same effectiveSteps, in opposite directions);
for S = 0 both calls pick direction +1 and the property fails. -/
theorem c9_back_and_forth (s : MotorState) (n sp : Int)
    (hf : s.acceleration_factor = 1) (hmin : 1 ≤ s.MIN_SPEED) (hn : 0 ≤ n)
    (hsp : 1 ≤ sp) :
    (move (move s (PyVal.vint n) (PyVal.vint sp)).1
        (PyVal.vint n) (PyVal.vint (-sp))).1.num_step = s.num_step := by
  have hfr := moveCore_frame s n sp
  have hv1 := move_valid s n sp hn
  have hf1 : (move s (PyVal.vint n) (PyVal.vint sp)).1.acceleration_factor = 1 := by
    rw [hv1, hfr.2.2.2.1, hf]
  have hmin1 : 1 ≤ (move s (PyVal.vint n) (PyVal.vint sp)).1.MIN_SPEED := by
    rw [hv1, hfr.2.2.2.2.1]; exact hmin
  have hclamp : clampedSpeed (move s (PyVal.vint n) (PyVal.vint sp)).1 (-sp) =
      clampedSpeed s sp := by
    unfold clampedSpeed
    rw [hv1, hfr.2.2.2.2.1, hfr.2.2.2.2.2]
    have e1 : (if -sp < 0 then -(-sp) else -sp) = sp := by
      rw [if_pos (by omega : -sp < 0)]; omega
    have e2 : (if sp < 0 then -sp else sp) = sp := by
      rw [if_neg (by omega : ¬ sp < 0)]
    rw [e1, e2]
  have h1 := move_num_step s n sp hf hmin hn
  have h2 := move_num_step (move s (PyVal.vint n) (PyVal.vint sp)).1 n (-sp) hf1 hmin1 hn
  rw [h2, hclamp, h1]
  have hd1 : dirOf sp = 1 := by
    simp only [dirOf]; rw [if_pos (by omega : sp ≥ 0)]
  have hd2 : dirOf (-sp) = -1 := by
    simp only [dirOf]; rw [if_neg (by omega : ¬ -sp ≥ 0)]
  rw [hd1, hd2]
  ring

/-- Witness for C9 at N = 7, S = 15 from the sample Stepper. -/
theorem c9_back_and_forth_witness :
    sampleStepper.acceleration_factor = 1 ∧ 1 ≤ sampleStepper.MIN_SPEED ∧
    0 ≤ (7 : Int) ∧ 1 ≤ (15 : Int) ∧
    (move (move sampleStepper (PyVal.vint 7) (PyVal.vint 15)).1
        (PyVal.vint 7) (PyVal.vint (-15))).1.num_step = sampleStepper.num_step :=
  ⟨rfl, by decide, by decide, by decide,
    c9_back_and_forth sampleStepper 7 15 rfl (by decide) (by decide) (by decide)⟩

/-- Counterexample to C9 as stated: with S = 0 both move(2, 0) and
move(2, -0) select direction +1 (0 is nonnegative and -0 = 0), so the two
calls advance the counter to 4 instead of returning it to 0. -/
theorem c9_back_and_forth_counterexample :
    ¬ ((move (move sampleStepper (PyVal.vint 2) (PyVal.vint 0)).1
          (PyVal.vint 2) (PyVal.vint (-0))).1.num_step = sampleStepper.num_step) := by
  intro hc
  have hfr := moveCore_frame sampleStepper 2 0
  have hv1 := move_valid sampleStepper 2 0 (by decide)
  have hf1 : (move sampleStepper (PyVal.vint 2) (PyVal.vint 0)).1.acceleration_factor = 1 := by
    rw [hv1, hfr.2.2.2.1]; rfl
  have hmin1 : 1 ≤ (move sampleStepper (PyVal.vint 2) (PyVal.vint 0)).1.MIN_SPEED := by
    rw [hv1, hfr.2.2.2.2.1]; decide
  have hclamp : clampedSpeed (move sampleStepper (PyVal.vint 2) (PyVal.vint 0)).1 (-0) = 10 := by
    unfold clampedSpeed
    rw [hv1, hfr.2.2.2.2.1, hfr.2.2.2.2.2]
    decide
  rw [move_num_step (move sampleStepper (PyVal.vint 2) (PyVal.vint 0)).1 2 (-0) hf1 hmin1
    (by decide), hclamp,
    move_num_step sampleStepper 2 0 rfl (by decide) (by decide)] at hc
  revert hc
  decide

end Stepmotor
